import Mathlib

/-!
Shallow embedding of `trainer.py` from the repository
AnnotatedTransformer-pycharm-Chinese, together with theorems checking the
natural-language specification against it.

Conventions of the embedding:
* token ids are integers (`ℤ`), a 2-D id tensor is a `List (List ℤ)`
  (list of rows);
* boolean mask tensors are modelled as total indexing functions
  (`ℕ → ℕ → Bool`, with a batch index in front where the tensor is 3-D);
  theorems about them quantify only over in-range indices;
* probability tensors use `ℚ` in place of floating point, modelled as a
  shape-carrying structure `Tensor2`;
* Python runtime failures (assert, division by zero) become `Option`.
-/

namespace Trainer

/-- Modelled from the spec: `subsequent_mask` lives in `utils.py`, which is
not part of the sources; per the spec it is the fixed causal mask, a
lower-triangular boolean matrix (inclusive diagonal), true where
column ≤ row, independent of the data. -/
def subsequent_mask (_L : ℕ) : ℕ → ℕ → Bool :=
  fun i j => decide (j ≤ i)

/-- Embeds `Batch.make_std_mask`: the padding mask `(tgt != pad)` broadcast
over the middle (row) dimension, AND-ed with `subsequent_mask` of the
target length. -/
def make_std_mask (tgt : List (List ℤ)) (pad : ℤ) : ℕ → ℕ → ℕ → Bool :=
  fun b i j =>
    decide (((tgt.getD b []).getD j pad) ≠ pad)
      && subsequent_mask ((tgt.getD 0 []).length) i j

/-- Embeds the `Batch` object in the case where a target is supplied. -/
structure Batch where
  src : List (List ℤ)
  src_mask : ℕ → ℕ → Bool
  tgt : List (List ℤ)
  tgt_y : List (List ℤ)
  tgt_mask : ℕ → ℕ → ℕ → Bool
  ntokens : ℕ

/-- Embeds `Batch.__init__` with `tgt` present: `src_mask` marks non-pad
source positions, `tgt` drops the final position, `tgt_y` drops the first,
`tgt_mask` combines padding and causal masks, and `ntokens` counts the
non-pad entries of `tgt_y`. -/
def Batch.make (src : List (List ℤ)) (tgt : List (List ℤ)) (pad : ℤ) : Batch :=
  let tgtIn := tgt.map (fun row => row.dropLast)
  let tgtY := tgt.map (fun row => row.drop 1)
  { src := src
    src_mask := fun b j => decide (((src.getD b []).getD j pad) ≠ pad)
    tgt := tgtIn
    tgt_y := tgtY
    tgt_mask := make_std_mask tgtIn pad
    ntokens := (tgtY.map (fun row => row.countP (fun t => decide (t ≠ pad)))).sum }

/-- A 2-D rational tensor: an explicit shape plus a total entry function.
Stands in for a float tensor of shape `[d0, d1]`. -/
structure Tensor2 where
  d0 : ℕ
  d1 : ℕ
  entry : ℕ → ℕ → ℚ

/-- Embeds `Tensor.fill_(v)` on a 2-D tensor: every entry becomes `v`,
the shape is kept. -/
def Tensor2.fill (t : Tensor2) (v : ℚ) : Tensor2 :=
  { t with entry := fun _ _ => v }

/-- Embeds `Tensor.scatter_(1, index.unsqueeze(1), v)`: in each row `i`,
the entry at column `index i` becomes `v`. -/
def Tensor2.scatterRow (t : Tensor2) (index : ℕ → ℕ) (v : ℚ) : Tensor2 :=
  { t with entry := fun i j => if j = index i then v else t.entry i j }

/-- Embeds the slice assignment `t[:, c] = v`: column `c` becomes `v`. -/
def Tensor2.setCol (t : Tensor2) (c : ℕ) (v : ℚ) : Tensor2 :=
  { t with entry := fun i j => if j = c then v else t.entry i j }

/-- Embeds `t.index_fill_(0, rows, 0.0)` where `rows` are the row indices
satisfying `p` (in the code, `nonzero(target == padding_idx)`). -/
def Tensor2.zeroRows (t : Tensor2) (p : ℕ → Bool) : Tensor2 :=
  { t with entry := fun i j => if p i then 0 else t.entry i j }

/-- Embeds the `LabelSmoothing` module's state: configuration set by
`__init__` plus the `true_dist` attribute it mutates on `forward`. -/
structure LabelSmoothing where
  size : ℕ
  padding_idx : ℕ
  confidence : ℚ
  smoothing : ℚ
  true_dist : Option Tensor2

/-- Embeds `LabelSmoothing.__init__`: stores `size`, `padding_idx`,
`smoothing`, `confidence = 1 - smoothing`, and sets `true_dist` to `None`. -/
def LabelSmoothing.init (size padding_idx : ℕ) (smoothing : ℚ) : LabelSmoothing :=
  { size := size
    padding_idx := padding_idx
    confidence := 1 - smoothing
    smoothing := smoothing
    true_dist := none }

/-- The true-distribution tensor built inside `LabelSmoothing.forward` from
`x` (for its shape), the targets, and the module configuration: fill with
`smoothing / (size - 2)`, scatter `confidence` at each row's target class,
zero the `padding_idx` column, then zero every row whose target is
`padding_idx`. -/
def LabelSmoothing.buildTrueDist (ls : LabelSmoothing) (x : Tensor2)
    (target : List ℕ) : Tensor2 :=
  ((((x.fill (ls.smoothing / ((ls.size : ℚ) - 2))).scatterRow
      (fun i => target.getD i 0) ls.confidence).setCol
      ls.padding_idx 0).zeroRows
      (fun i => decide (target.getD i 0 = ls.padding_idx)))

/-- Embeds `LabelSmoothing.forward`. The `assert x.size(1) == self.size`
becomes the `Option` guard; on success the rebuilt distribution is stored
into the module's `true_dist` attribute and the criterion (`KLDivLoss`,
kept abstract as a function argument, as the spec treats divergence values
as opaque) is applied to `x` and the distribution. Returns the mutated
module together with the loss value. -/
def LabelSmoothing.forward (criterion : Tensor2 → Tensor2 → ℚ)
    (ls : LabelSmoothing) (x : Tensor2) (target : List ℕ) :
    Option (LabelSmoothing × ℚ) :=
  if x.d1 = ls.size then
    let td := ls.buildTrueDist x target
    some ({ ls with true_dist := some td }, criterion x td)
  else
    none

/-- Embeds `SimpleLossCompute.__call__`: apply the generator to `x`,
flatten the projected output to `[N, V]` rows and the labels to `[N]`,
apply the criterion, divide by `norm`; return
`(sloss.data * norm, sloss)`. The generator and criterion are the stored
callables. -/
def SimpleLossCompute.call (generator : List (List (List ℚ)) → List (List (List ℚ)))
    (criterion : List (List ℚ) → List ℤ → ℚ)
    (x : List (List (List ℚ))) (y : List (List ℤ)) (norm : ℚ) : ℚ × ℚ :=
  let xg := generator x
  let sloss := criterion xg.flatten y.flatten / norm
  (sloss * norm, sloss)

/-- Embeds the `TrainState` counters. -/
structure TrainState where
  step : ℕ
  accum_step : ℕ
  samples : ℕ
  tokens : ℕ
deriving DecidableEq

/-- A fresh `TrainState`, all counters zero. -/
def TrainState.init : TrainState :=
  { step := 0, accum_step := 0, samples := 0, tokens := 0 }

/-- The observable per-call state of `run_epoch`: the threaded
`TrainState` plus counts of the calls made to the external capabilities
(`loss_node.backward()`, `optimizer.step()`, `optimizer.zero_grad()`,
`scheduler.step()`) and the running loss/token totals. -/
structure EpochState where
  ts : TrainState
  backwardCalls : ℕ
  optStepCalls : ℕ
  zeroGradCalls : ℕ
  schedStepCalls : ℕ
  total_loss : ℚ
  total_tokens : ℕ

/-- One iteration of the `run_epoch` loop body at zero-based batch index
`i`: in a training mode, backward, bump `step`/`samples`/`tokens`, do the
accumulation-gated optimizer step and `accum_step` bump when
`i % accum_iter == 0`, and advance the scheduler once; in every mode add
the display loss and token count into the running totals. `lossOf`
abstracts `loss_compute(model.forward(...), batch.tgt_y, batch.ntokens)`,
whose display value is external to the counters. -/
def epochStep (lossOf : Batch → ℚ) (mode : String) (accum_iter : ℕ)
    (i : ℕ) (batch : Batch) (st : EpochState) : EpochState :=
  let loss := lossOf batch
  let st1 :=
    if mode = "train" ∨ mode = "train+log" then
      let ts1 : TrainState :=
        { st.ts with
          step := st.ts.step + 1
          samples := st.ts.samples + batch.src.length
          tokens := st.ts.tokens + batch.ntokens }
      let st' := { st with ts := ts1, backwardCalls := st.backwardCalls + 1 }
      let st'' :=
        if i % accum_iter = 0 then
          { st' with
            optStepCalls := st'.optStepCalls + 1
            zeroGradCalls := st'.zeroGradCalls + 1
            ts := { st'.ts with accum_step := st'.ts.accum_step + 1 } }
        else st'
      { st'' with schedStepCalls := st''.schedStepCalls + 1 }
    else st
  { st1 with
    total_loss := st1.total_loss + loss
    total_tokens := st1.total_tokens + batch.ntokens }

/-- The `run_epoch` loop from batch index `i` onward. -/
def runBatches (lossOf : Batch → ℚ) (mode : String) (accum_iter : ℕ) :
    List Batch → ℕ → EpochState → EpochState
  | [], _, st => st
  | b :: rest, i, st =>
      runBatches lossOf mode accum_iter rest (i + 1)
        (epochStep lossOf mode accum_iter i b st)

/-- Embeds `run_epoch`: starting from zero totals and zero call counts,
process the batches in order and return
`(total_loss / total_tokens, train_state)` together with the final call
counts. The final division is the fallible step: with `total_tokens = 0`
it raises (`none`) instead of producing a mean. -/
def run_epoch (lossOf : Batch → ℚ) (data_iter : List Batch)
    (mode : String) (accum_iter : ℕ) (train_state : TrainState) :
    Option ℚ × EpochState :=
  let st0 : EpochState :=
    { ts := train_state, backwardCalls := 0, optStepCalls := 0
      zeroGradCalls := 0, schedStepCalls := 0
      total_loss := 0, total_tokens := 0 }
  let stf := runBatches lossOf mode accum_iter data_iter 0 st0
  (if stf.total_tokens = 0 then none
   else some (stf.total_loss / (stf.total_tokens : ℚ)), stf)

/-! ## Concrete objects instantiating the claims -/

/-- A criterion stub standing in for the (externally computed) KL
divergence value. -/
def critZero : Tensor2 → Tensor2 → ℚ := fun _ _ => 0

/-- The label-smoothing module of the spec's worked example:
`size = 5, padding_idx = 0, smoothing = 0.1`. -/
def lsDemo : LabelSmoothing := LabelSmoothing.init 5 0 (1 / 10)

/-- A concrete `[1, 5]` log-probability tensor supplying the shape for the
worked example. -/
def xDemo : Tensor2 := ⟨1, 5, fun _ _ => 0⟩

/-- A zero stand-in for the external model/loss composition; its value
does not influence any counter. -/
def lossZero : Batch → ℚ := fun _ => 0

/-- The synthetic batch of the spec's end-to-end scenario: batch size 2,
`src_len = 3`, `tgt_len = 4`, `pad_id = 2`, no pad token anywhere. -/
def demoBatch : Batch :=
  Batch.make [[1, 1, 1], [1, 1, 1]] [[1, 1, 1, 1], [1, 1, 1, 1]] 2

/-- The `TrainState` after the first epoch of the end-to-end scenario
(5 synthetic batches, train mode, `accum_iter = 2`, fresh state). -/
def epoch1TS : TrainState :=
  (run_epoch lossZero (List.replicate 5 demoBatch) "train" 2 TrainState.init).2.ts

/-- The `TrainState` after the second epoch of the end-to-end scenario,
continuing from `epoch1TS`. -/
def epoch2TS : TrainState :=
  (run_epoch lossZero (List.replicate 5 demoBatch) "train" 2 epoch1TS).2.ts

/-! Helper lemmas. -/

theorem getD_dropLast (l : List ℤ) (j : ℕ) (d : ℤ) (h : j + 1 < l.length) :
    l.dropLast.getD j d = l.getD j d := by
  have hj : j < l.dropLast.length := by
    simpa [List.length_dropLast] using by omega
  rw [List.getD_eq_getElem _ _ hj, List.getD_eq_getElem _ _ (by omega),
    List.getElem_dropLast]

theorem sum_map_const_of_eq {α : Type} (l : List α) (f : α → ℕ) (c : ℕ)
    (h : ∀ x ∈ l, f x = c) : (l.map f).sum = l.length * c := by
  induction l with
  | nil => simp
  | cons a t ih =>
      simp only [List.map_cons, List.sum_cons, List.length_cons,
        h a (by simp)]
      rw [ih (fun x hx => h x (by simp [hx]))]
      ring

/-! ## C1: target mask combines causal and padding masks -/

/-- C1: for a `Batch` built from a rectangular target (rows of length `T`)
and any valid indices `b, i, j` into `tgt_mask` (i.e. `b` a batch row and
`i, j < T - 1`), the mask is true iff `j ≤ i` and the `j`-th target token
of row `b` is not the pad id. -/
theorem C1_tgt_mask (src tgt : List (List ℤ)) (pad : ℤ) (T b i j : ℕ)
    (hrect : ∀ row ∈ tgt, row.length = T)
    (hb : b < tgt.length) (hi : i < T - 1) (hj : j < T - 1) :
    (Batch.make src tgt pad).tgt_mask b i j = true ↔
      (j ≤ i ∧ (tgt.getD b []).getD j pad ≠ pad) := by
  have hrow : (tgt.getD b []).length = T := by
    rw [List.getD_eq_getElem _ _ hb]
    exact hrect _ (List.getElem_mem hb)
  have hmap : (tgt.map (fun row => row.dropLast)).getD b [] =
      (tgt.getD b []).dropLast := by
    rw [List.getD_eq_getElem _ _ (by simpa using hb),
      List.getD_eq_getElem _ _ hb, List.getElem_map]
  simp only [Batch.make, make_std_mask, subsequent_mask, Bool.and_eq_true,
    decide_eq_true_eq, hmap]
  rw [getD_dropLast _ _ _ (by omega)]
  tauto

/-- C1 witness: a concrete batch with `T = 4`, one padded target position;
at `b = 0, i = 1, j = 1` the hypotheses hold and the mask equivalence is
checked on the instance. -/
theorem C1_tgt_mask_witness :
    (Batch.make [[1]] [[1, 2, 3, 1]] 2).tgt_mask 0 1 1 = true ↔
      (1 ≤ 1 ∧ (([[1, 2, 3, 1]] : List (List ℤ)).getD 0 []).getD 1 2 ≠ 2) :=
  C1_tgt_mask [[1]] [[1, 2, 3, 1]] 2 4 0 1 1
    (by intro row hrow; simp at hrow; simp [hrow]) (by decide) (by decide)
    (by decide)

/-! ## C8: token counting -/

/-- C8: for every `Batch` built from a rectangular target (rows of length
`T ≥ 1`), `ntokens` counts the non-pad entries of `tgt_y`; and when every
entry of `tgt_y` is non-pad, `ntokens = batch_size * (T - 1)`. -/
theorem C8_ntokens (src tgt : List (List ℤ)) (pad : ℤ) (T : ℕ)
    (hrect : ∀ row ∈ tgt, row.length = T) (hT : 1 ≤ T) :
    (Batch.make src tgt pad).ntokens =
        (Batch.make src tgt pad).tgt_y.flatten.countP (fun t => decide (t ≠ pad))
      ∧ ((∀ t_ ∈ (Batch.make src tgt pad).tgt_y.flatten, t_ ≠ pad) →
        (Batch.make src tgt pad).ntokens = tgt.length * (T - 1)) := by
  constructor
  · simp [Batch.make, List.countP_flatten]
  · intro hall
    simp only [Batch.make]
    rw [sum_map_const_of_eq _ _ (T - 1)]
    · simp
    · intro row hrow
      rcases List.mem_map.mp hrow with ⟨r0, hr0, rfl⟩
      have hlen : (r0.drop 1).length = T - 1 := by
        simp [hrect r0 hr0]
      rw [List.countP_eq_length.mpr, hlen]
      intro a ha
      have : a ∈ (Batch.make src tgt pad).tgt_y.flatten := by
        simp only [Batch.make]
        exact List.mem_flatten.mpr ⟨r0.drop 1, List.mem_map.mpr ⟨r0, hr0, rfl⟩, ha⟩
      simpa using hall a this

/-- C8 witness: a concrete 2×4 target with one pad entry in `tgt_y`;
the count identity holds, and on an all-non-pad batch the product formula
holds. -/
theorem C8_ntokens_witness :
    ((Batch.make [[1]] [[1, 3, 2, 1], [1, 1, 1, 1]] 2).ntokens =
        (Batch.make [[1]] [[1, 3, 2, 1], [1, 1, 1, 1]] 2).tgt_y.flatten.countP
          (fun t => decide (t ≠ 2))
      ∧ ((∀ t_ ∈ (Batch.make [[1]] [[1, 3, 2, 1], [1, 1, 1, 1]] 2).tgt_y.flatten,
            t_ ≠ 2) →
        (Batch.make [[1]] [[1, 3, 2, 1], [1, 1, 1, 1]] 2).ntokens =
          ([[1, 3, 2, 1], [1, 1, 1, 1]] : List (List ℤ)).length * (4 - 1))) :=
  C8_ntokens [[1]] [[1, 3, 2, 1], [1, 1, 1, 1]] 2 4
    (by intro row hrow; simp at hrow; rcases hrow with h | h <;> simp [h])
    (by decide)

/-! ## C2: label-smoothing true-distribution rows -/

/-- C2: for every `forward` call with `x.d1 = size`, `size ≥ 3` and
`smoothing ∈ [0,1)`, the constructed row for sample `i` holds
`smoothing/(size-2)` everywhere, overwritten by `1 - smoothing` at the
target class and by `0` at `padding_idx`, and is all zeros when the
target is `padding_idx`; moreover the spec's instance
(`size=5, padding_idx=0, smoothing=0.1, target=[2]`) yields the row
`[0, 1/30, 9/10, 1/30, 1/30]`, which sums to `1`. -/
theorem C2_true_dist_rows (size padding_idx : ℕ) (smoothing : ℚ)
    (x : Tensor2) (target : List ℕ) (i : ℕ)
    (hsize : 3 ≤ size) (hs0 : 0 ≤ smoothing) (hs1 : smoothing < 1)
    (hV : x.d1 = size) (hi : i < target.length) :
    (target.getD i 0 ≠ padding_idx →
      ∀ j, ((LabelSmoothing.init size padding_idx smoothing).buildTrueDist
          x target).entry i j =
        if j = padding_idx then 0
        else if j = target.getD i 0 then 1 - smoothing
        else smoothing / ((size : ℚ) - 2))
    ∧ (target.getD i 0 = padding_idx →
      ∀ j, ((LabelSmoothing.init size padding_idx smoothing).buildTrueDist
          x target).entry i j = 0)
    ∧ (List.range 5).map
        (((LabelSmoothing.init 5 0 (1 / 10)).buildTrueDist xDemo [2]).entry 0) =
        [0, 1 / 30, 9 / 10, 1 / 30, 1 / 30]
    ∧ ((List.range 5).map
        (((LabelSmoothing.init 5 0 (1 / 10)).buildTrueDist xDemo [2]).entry 0)).sum
        = 1 := by
  have hrow : (List.range 5).map
      (((LabelSmoothing.init 5 0 (1 / 10)).buildTrueDist xDemo [2]).entry 0) =
      [0, 1 / 30, 9 / 10, 1 / 30, 1 / 30] := by
    norm_num [List.range_succ, LabelSmoothing.buildTrueDist, LabelSmoothing.init,
      Tensor2.fill, Tensor2.scatterRow, Tensor2.setCol, Tensor2.zeroRows, xDemo]
  refine ⟨?_, ?_, hrow, by rw [hrow]; norm_num⟩
  · intro h j
    simp only [LabelSmoothing.buildTrueDist, LabelSmoothing.init, Tensor2.fill,
      Tensor2.scatterRow, Tensor2.setCol, Tensor2.zeroRows]
    rw [if_neg (by simpa using h)]
  · intro h j
    simp only [LabelSmoothing.buildTrueDist, LabelSmoothing.init, Tensor2.fill,
      Tensor2.scatterRow, Tensor2.setCol, Tensor2.zeroRows]
    rw [if_pos (by simpa using h)]

/-- C2 witness: applying the row description at the spec's concrete
instance (`size=5, padding_idx=0, smoothing=0.1, target=[2]`, sample 0,
class 2) yields the confidence value `9/10`. -/
theorem C2_true_dist_rows_witness :
    ((LabelSmoothing.init 5 0 (1 / 10)).buildTrueDist xDemo [2]).entry 0 2 =
      9 / 10 := by
  have h := (C2_true_dist_rows 5 0 (1 / 10) xDemo [2] 0 (by norm_num)
      (by norm_num) (by norm_num) rfl (by decide)).1 (by decide) 2
  norm_num at h
  exact h

/-! ## C7: the shape assertion in LabelSmoothing.forward -/

/-- C7: `LabelSmoothing.forward` fails (returns no loss) exactly when the
class dimension of the output differs from the configured `size`; when
they agree the failure branch is unreachable. -/
theorem C7_size_assert (criterion : Tensor2 → Tensor2 → ℚ)
    (ls : LabelSmoothing) (x : Tensor2) (target : List ℕ) :
    LabelSmoothing.forward criterion ls x target = none ↔ x.d1 ≠ ls.size := by
  by_cases h : x.d1 = ls.size <;> simp [LabelSmoothing.forward, h]

/-! ## C9: the true-distribution buffer is persisted, not ephemeral -/

/-- C9 counterexample: after a concrete successful `forward` call the
returned module stores the constructed distribution in its `true_dist`
attribute — the state is `some (buildTrueDist …)`, not `none`, so the
object does retain the buffer after the call returns. -/
theorem C9_buffer_retained :
    LabelSmoothing.forward critZero lsDemo xDemo [2] =
      some ({ lsDemo with true_dist := some (lsDemo.buildTrueDist xDemo [2]) }, 0)
    ∧ some (lsDemo.buildTrueDist xDemo [2]) ≠ (none : Option Tensor2) :=
  ⟨rfl, by simp⟩

/-- C9 amended: the distribution is rebuilt from scratch on every
`forward` call — it does not depend on the previously stored buffer — but
the freshly built distribution is stored into the module's `true_dist`
attribute and persists after the call. -/
theorem C9_rebuilt_and_stored (criterion : Tensor2 → Tensor2 → ℚ)
    (ls : LabelSmoothing) (x : Tensor2) (target : List ℕ)
    (h : x.d1 = ls.size) :
    LabelSmoothing.forward criterion ls x target =
      some ({ ls with true_dist := some (ls.buildTrueDist x target) },
        criterion x (ls.buildTrueDist x target))
    ∧ (∀ td0 : Option Tensor2,
        ({ ls with true_dist := td0 } : LabelSmoothing).buildTrueDist x target =
          ls.buildTrueDist x target) := by
  constructor
  · simp [LabelSmoothing.forward, h]
  · intro td0
    rfl

/-- C9 witness: the amended description instantiated at the concrete call
of the counterexample. -/
theorem C9_rebuilt_and_stored_witness :
    LabelSmoothing.forward critZero lsDemo xDemo [2] =
      some ({ lsDemo with true_dist := some (lsDemo.buildTrueDist xDemo [2]) },
        critZero xDemo (lsDemo.buildTrueDist xDemo [2])) :=
  (C9_rebuilt_and_stored critZero lsDemo xDemo [2] rfl).1

/-! ## C6: SimpleLossCompute returns exactly the two loss values -/

/-- C6: with a nonzero divisor `norm`, `SimpleLossCompute.__call__` returns
exactly the pair consisting of the criterion value on the flattened
projected output and flattened labels (the detached loss re-scaled by
`norm` collapses back to the criterion value itself), and that value
divided by `norm`; being a pure function it performs no other effect and
in particular never invokes backward. -/
theorem C6_loss_compute_pair
    (generator : List (List (List ℚ)) → List (List (List ℚ)))
    (criterion : List (List ℚ) → List ℤ → ℚ)
    (x : List (List (List ℚ))) (y : List (List ℤ)) (norm : ℚ)
    (h : norm ≠ 0) :
    SimpleLossCompute.call generator criterion x y norm =
      (criterion (generator x).flatten y.flatten,
        criterion (generator x).flatten y.flatten / norm) := by
  simp only [SimpleLossCompute.call, Prod.mk.injEq]
  exact ⟨div_mul_cancel₀ _ h, trivial⟩

/-- C6 witness: at a concrete criterion returning `7`, identity generator,
empty inputs and `norm = 2`, the call returns `(7, 7/2)`. -/
theorem C6_loss_compute_pair_witness :
    SimpleLossCompute.call id (fun _ _ => (7 : ℚ)) [] [] 2 = (7, 7 / 2) :=
  C6_loss_compute_pair id (fun _ _ => (7 : ℚ)) [] [] 2 (by norm_num)

/-! ## run_epoch: per-step and whole-loop lemmas -/

theorem epochStep_train_eq (lossOf : Batch → ℚ) (mode : String) (k i : ℕ)
    (b : Batch) (st : EpochState)
    (hm : mode = "train" ∨ mode = "train+log") :
    epochStep lossOf mode k i b st =
      { ts :=
          { step := st.ts.step + 1
            accum_step := st.ts.accum_step + (if i % k = 0 then 1 else 0)
            samples := st.ts.samples + b.src.length
            tokens := st.ts.tokens + b.ntokens }
        backwardCalls := st.backwardCalls + 1
        optStepCalls := st.optStepCalls + (if i % k = 0 then 1 else 0)
        zeroGradCalls := st.zeroGradCalls + (if i % k = 0 then 1 else 0)
        schedStepCalls := st.schedStepCalls + 1
        total_loss := st.total_loss + lossOf b
        total_tokens := st.total_tokens + b.ntokens } := by
  simp only [epochStep]
  rw [if_pos hm]
  by_cases h : i % k = 0 <;> simp [h]

theorem epochStep_notrain_eq (lossOf : Batch → ℚ) (mode : String) (k i : ℕ)
    (b : Batch) (st : EpochState)
    (hm : ¬(mode = "train" ∨ mode = "train+log")) :
    epochStep lossOf mode k i b st =
      { st with
        total_loss := st.total_loss + lossOf b
        total_tokens := st.total_tokens + b.ntokens } := by
  simp only [epochStep]
  rw [if_neg hm]

/-- Loop invariant of `run_epoch` in a training mode, for an arbitrary
starting index: `accum_step` and the optimizer/zero-grad call counts grow
by the number of indices `i` in `[i0, i0 + N)` with `i % k == 0`, while
`step`, the backward count and the scheduler count grow by `N`, and
`samples` grows by the sum of the batch sizes. -/
theorem runBatches_train (lossOf : Batch → ℚ) (mode : String) (k : ℕ)
    (hm : mode = "train" ∨ mode = "train+log") (bs : List Batch) :
    ∀ (i0 : ℕ) (st : EpochState),
      (runBatches lossOf mode k bs i0 st).ts.accum_step =
          st.ts.accum_step +
            (List.range' i0 bs.length).countP (fun i => decide (i % k = 0))
      ∧ (runBatches lossOf mode k bs i0 st).optStepCalls =
          st.optStepCalls +
            (List.range' i0 bs.length).countP (fun i => decide (i % k = 0))
      ∧ (runBatches lossOf mode k bs i0 st).zeroGradCalls =
          st.zeroGradCalls +
            (List.range' i0 bs.length).countP (fun i => decide (i % k = 0))
      ∧ (runBatches lossOf mode k bs i0 st).schedStepCalls =
          st.schedStepCalls + bs.length
      ∧ (runBatches lossOf mode k bs i0 st).backwardCalls =
          st.backwardCalls + bs.length
      ∧ (runBatches lossOf mode k bs i0 st).ts.step = st.ts.step + bs.length
      ∧ (runBatches lossOf mode k bs i0 st).ts.samples =
          st.ts.samples + (bs.map (fun b => b.src.length)).sum := by
  induction bs with
  | nil => intro i0 st; simp [runBatches]
  | cons b rest ih =>
      intro i0 st
      obtain ⟨h1, h2, h3, h4, h5, h6, h7⟩ :=
        ih (i0 + 1) (epochStep lossOf mode k i0 b st)
      have hstep := epochStep_train_eq lossOf mode k i0 b st hm
      rw [hstep] at h1 h2 h3 h4 h5 h6 h7
      have hcons : List.range' i0 (rest.length + 1) =
          i0 :: List.range' (i0 + 1) rest.length := rfl
      refine ⟨?_, ?_, ?_, ?_, ?_, ?_, ?_⟩ <;>
        · simp only [runBatches, hstep, List.length_cons, hcons,
            List.countP_cons, List.map_cons, List.sum_cons, h1, h2, h3, h4,
            h5, h6, h7]
          try simp only [decide_eq_true_eq]
          by_cases h : i0 % k = 0
          · try simp only [if_pos h]
            omega
          · try simp only [if_neg h]
            omega

/-- Loop invariant of `run_epoch` outside the training modes: only the
running loss/token totals change; the `TrainState` and every external
call count are left untouched. -/
theorem runBatches_notrain (lossOf : Batch → ℚ) (mode : String) (k : ℕ)
    (hm : ¬(mode = "train" ∨ mode = "train+log")) (bs : List Batch) :
    ∀ (i0 : ℕ) (st : EpochState),
      (runBatches lossOf mode k bs i0 st).ts = st.ts
      ∧ (runBatches lossOf mode k bs i0 st).backwardCalls = st.backwardCalls
      ∧ (runBatches lossOf mode k bs i0 st).optStepCalls = st.optStepCalls
      ∧ (runBatches lossOf mode k bs i0 st).zeroGradCalls = st.zeroGradCalls
      ∧ (runBatches lossOf mode k bs i0 st).schedStepCalls = st.schedStepCalls := by
  induction bs with
  | nil => intro i0 st; simp [runBatches]
  | cons b rest ih =>
      intro i0 st
      obtain ⟨g1, g2, g3, g4, g5⟩ := ih (i0 + 1) (epochStep lossOf mode k i0 b st)
      have hstep := epochStep_notrain_eq lossOf mode k i0 b st hm
      rw [hstep] at g1 g2 g3 g4 g5
      refine ⟨?_, ?_, ?_, ?_, ?_⟩ <;>
        simp only [runBatches, hstep, g1, g2, g3, g4, g5]

/-! ## C3: accumulation cadence -/

/-- C3: over `N` batches in a training mode with `accum_iter = k ≥ 1`,
`accum_step` grows by — and `optimizer.step` is called — exactly the
number of batch indices `i ∈ [0, N)` with `i % k == 0`, while
`scheduler.step` is called exactly `N` times regardless of `k`. -/
theorem C3_accum_cadence (lossOf : Batch → ℚ) (mode : String) (k : ℕ)
    (bs : List Batch) (ts : TrainState)
    (hm : mode = "train" ∨ mode = "train+log") (hk : 1 ≤ k) :
    (run_epoch lossOf bs mode k ts).2.ts.accum_step =
        ts.accum_step +
          (List.range bs.length).countP (fun i => decide (i % k = 0))
    ∧ (run_epoch lossOf bs mode k ts).2.optStepCalls =
        (List.range bs.length).countP (fun i => decide (i % k = 0))
    ∧ (run_epoch lossOf bs mode k ts).2.schedStepCalls = bs.length := by
  obtain ⟨h1, h2, _, h4, _, _, _⟩ := runBatches_train lossOf mode k hm bs 0
    { ts := ts, backwardCalls := 0, optStepCalls := 0, zeroGradCalls := 0
      schedStepCalls := 0, total_loss := 0, total_tokens := 0 }
  rw [List.range_eq_range']
  exact ⟨by simpa [run_epoch] using h1, by simpa [run_epoch] using h2,
    by simpa [run_epoch] using h4⟩

/-- C3 witness: three batches, `accum_iter = 2`, train mode, fresh state —
updates fire at indices 0 and 2, the scheduler advances three times. -/
theorem C3_accum_cadence_witness :
    (run_epoch lossZero [demoBatch, demoBatch, demoBatch] "train" 2
        TrainState.init).2.ts.accum_step = 2
    ∧ (run_epoch lossZero [demoBatch, demoBatch, demoBatch] "train" 2
        TrainState.init).2.optStepCalls = 2
    ∧ (run_epoch lossZero [demoBatch, demoBatch, demoBatch] "train" 2
        TrainState.init).2.schedStepCalls = 3 := by
  obtain ⟨h1, h2, h3⟩ := C3_accum_cadence lossZero "train" 2
    [demoBatch, demoBatch, demoBatch] TrainState.init (Or.inl rfl)
    (by norm_num)
  exact ⟨by rw [h1]; decide, by rw [h2]; decide, by rw [h3]; decide⟩

/-! ## C5: eval mode is effect-free on the training state -/

/-- C5: with `mode = "eval"`, `run_epoch` returns the supplied
`TrainState` with all four counters unchanged and performs no backward,
`optimizer.step`, `optimizer.zero_grad` or `scheduler.step` call. -/
theorem C5_eval_frame (lossOf : Batch → ℚ) (k : ℕ) (bs : List Batch)
    (ts : TrainState) (mode : String) (hm : mode = "eval") :
    (run_epoch lossOf bs mode k ts).2.ts = ts
    ∧ (run_epoch lossOf bs mode k ts).2.backwardCalls = 0
    ∧ (run_epoch lossOf bs mode k ts).2.optStepCalls = 0
    ∧ (run_epoch lossOf bs mode k ts).2.zeroGradCalls = 0
    ∧ (run_epoch lossOf bs mode k ts).2.schedStepCalls = 0 := by
  subst hm
  obtain ⟨g1, g2, g3, g4, g5⟩ := runBatches_notrain lossOf "eval" k
    (by simp) bs 0
    { ts := ts, backwardCalls := 0, optStepCalls := 0, zeroGradCalls := 0
      schedStepCalls := 0, total_loss := 0, total_tokens := 0 }
  exact ⟨by simpa [run_epoch] using g1, by simpa [run_epoch] using g2,
    by simpa [run_epoch] using g3, by simpa [run_epoch] using g4,
    by simpa [run_epoch] using g5⟩

/-- C5 witness: a concrete eval run over one batch leaves the fresh
`TrainState` and all call counts at zero. -/
theorem C5_eval_frame_witness :
    (run_epoch lossZero [demoBatch] "eval" 3 TrainState.init).2.ts =
        TrainState.init
    ∧ (run_epoch lossZero [demoBatch] "eval" 3 TrainState.init).2.backwardCalls = 0
    ∧ (run_epoch lossZero [demoBatch] "eval" 3 TrainState.init).2.optStepCalls = 0
    ∧ (run_epoch lossZero [demoBatch] "eval" 3 TrainState.init).2.zeroGradCalls = 0
    ∧ (run_epoch lossZero [demoBatch] "eval" 3 TrainState.init).2.schedStepCalls = 0 :=
  C5_eval_frame lossZero 3 [demoBatch] TrainState.init "eval" rfl

/-! ## C10: empty batch sequence -/

/-- C10: over the empty batch sequence, in any mode, the running token
total stays `0` and the final division `total_loss / total_tokens` fails
(no mean loss is produced) instead of returning `0`. -/
theorem C10_empty_run (lossOf : Batch → ℚ) (mode : String) (k : ℕ)
    (ts : TrainState) :
    (run_epoch lossOf [] mode k ts).1 = none
    ∧ (run_epoch lossOf [] mode k ts).2.total_tokens = 0 :=
  ⟨rfl, rfl⟩

/-! ## C4: the end-to-end two-epoch scenario -/

/-- C4 counterexample: in the spec's scenario (two epochs of 5 synthetic
batches of size 2, `accum_iter = 2`, one shared fresh `TrainState`) the
final state has `step = 10` and `samples = 20`, but `accum_step` is not
`5`: each `run_epoch` call restarts the batch index at 0, so updates fire
at indices 0, 2, 4 of both epochs. -/
theorem C4_scenario_counterexample :
    (epoch2TS.step = 10 ∧ epoch2TS.samples = 20) ∧ ¬epoch2TS.accum_step = 5 := by
  decide

/-- C4 amended: the scenario ends with `step = 10`, `samples = 20` and
`accum_step = 6` (updates at indices 0, 2, 4 of each of the two epochs). -/
theorem C4_scenario_two_epochs :
    epoch2TS.step = 10 ∧ epoch2TS.accum_step = 6 ∧ epoch2TS.samples = 20 := by
  decide

end Trainer
